import Mathlib

/-!
Verification of the Blackboard client (`src/blackboard.py`).

Python 2 byte strings (`str`) are embedded as `List Nat` with entries below
256.  MD5 is implemented directly (RFC 1321) so that the challenge digests
are concrete and executable.  The HTTP opener is embedded as an oracle
`Request → Cookies → HttpResponse` together with explicit threading of the
cookie store and a trace of issued requests.
-/

set_option maxRecDepth 4096

/-- Left rotation of a 32-bit word (a natural below `2^32`). -/
def rotl (x n : Nat) : Nat :=
  ((x <<< n) ||| (x >>> (32 - n))) % 4294967296

/-- MD5 round function F. -/
def mdF (b c d : Nat) : Nat := (b &&& c) ||| ((b ^^^ 4294967295) &&& d)

/-- MD5 round function G. -/
def mdG (b c d : Nat) : Nat := (d &&& b) ||| ((d ^^^ 4294967295) &&& c)

/-- MD5 round function H. -/
def mdH (b c d : Nat) : Nat := b ^^^ c ^^^ d

/-- MD5 round function I. -/
def mdI (b c d : Nat) : Nat := c ^^^ (b ||| (d ^^^ 4294967295))

/-- MD5 sine-derived round constants. -/
def mdK : List Nat :=
  [0xd76aa478, 0xe8c7b756, 0x242070db, 0xc1bdceee,
   0xf57c0faf, 0x4787c62a, 0xa8304613, 0xfd469501,
   0x698098d8, 0x8b44f7af, 0xffff5bb1, 0x895cd7be,
   0x6b901122, 0xfd987193, 0xa679438e, 0x49b40821,
   0xf61e2562, 0xc040b340, 0x265e5a51, 0xe9b6c7aa,
   0xd62f105d, 0x02441453, 0xd8a1e681, 0xe7d3fbc8,
   0x21e1cde6, 0xc33707d6, 0xf4d50d87, 0x455a14ed,
   0xa9e3e905, 0xfcefa3f8, 0x676f02d9, 0x8d2a4c8a,
   0xfffa3942, 0x8771f681, 0x6d9d6122, 0xfde5380c,
   0xa4beea44, 0x4bdecfa9, 0xf6bb4b60, 0xbebfbc70,
   0x289b7ec6, 0xeaa127fa, 0xd4ef3085, 0x04881d05,
   0xd9d4d039, 0xe6db99e5, 0x1fa27cf8, 0xc4ac5665,
   0xf4292244, 0x432aff97, 0xab9423a7, 0xfc93a039,
   0x655b59c3, 0x8f0ccc92, 0xffeff47d, 0x85845dd1,
   0x6fa87e4f, 0xfe2ce6e0, 0xa3014314, 0x4e0811a1,
   0xf7537e82, 0xbd3af235, 0x2ad7d2bb, 0xeb86d391]

/-- MD5 per-round rotation amounts. -/
def mdS : List Nat :=
  [7, 12, 17, 22, 7, 12, 17, 22, 7, 12, 17, 22, 7, 12, 17, 22,
   5, 9, 14, 20, 5, 9, 14, 20, 5, 9, 14, 20, 5, 9, 14, 20,
   4, 11, 16, 23, 4, 11, 16, 23, 4, 11, 16, 23, 4, 11, 16, 23,
   6, 10, 15, 21, 6, 10, 15, 21, 6, 10, 15, 21, 6, 10, 15, 21]

/-- One MD5 round: `M` is the 16-word message schedule, `i` the round index. -/
def md5Step (M : List Nat) (st : Nat × Nat × Nat × Nat) (i : Nat) :
    Nat × Nat × Nat × Nat :=
  let a := st.1
  let b := st.2.1
  let c := st.2.2.1
  let d := st.2.2.2
  let f := if i < 16 then mdF b c d
           else if i < 32 then mdG b c d
           else if i < 48 then mdH b c d
           else mdI b c d
  let g := if i < 16 then i
           else if i < 32 then (5 * i + 1) % 16
           else if i < 48 then (3 * i + 5) % 16
           else (7 * i) % 16
  let tmp := (f + a + mdK.getD i 0 + M.getD g 0) % 4294967296
  (d, (b + rotl tmp (mdS.getD i 0)) % 4294967296, b, c)

/-- Compress one 64-byte block into the running MD5 state. -/
def md5Block (st : Nat × Nat × Nat × Nat) (block : List Nat) :
    Nat × Nat × Nat × Nat :=
  let M := (List.range 16).map fun j =>
    block.getD (4 * j) 0 + 256 * block.getD (4 * j + 1) 0 +
    65536 * block.getD (4 * j + 2) 0 + 16777216 * block.getD (4 * j + 3) 0
  let r := (List.range 64).foldl (md5Step M) st
  ((st.1 + r.1) % 4294967296, (st.2.1 + r.2.1) % 4294967296,
   (st.2.2.1 + r.2.2.1) % 4294967296, (st.2.2.2 + r.2.2.2) % 4294967296)

/-- MD5 padding: `0x80`, zeros to 56 mod 64, then the 64-bit little-endian
bit length. -/
def md5Pad (msg : List Nat) : List Nat :=
  let z := (119 - msg.length % 64) % 64
  let bitlen := (8 * msg.length) % 18446744073709551616
  msg ++ [128] ++ List.replicate z 0 ++
    ((List.range 8).map fun i => (bitlen >>> (8 * i)) % 256)

/-- Split a byte list into 64-byte chunks; the fuel argument bounds the
number of chunks (structural recursion, so the kernel can evaluate it). -/
def chunks64Aux : Nat → List Nat → List (List Nat)
  | _, [] => []
  | 0, _ :: _ => []
  | fuel + 1, a :: l => ((a :: l).take 64) :: chunks64Aux fuel ((a :: l).drop 64)

/-- Split a byte list into 64-byte chunks. -/
def chunks64 (l : List Nat) : List (List Nat) := chunks64Aux l.length l

/-- Little-endian 4-byte serialisation of a 32-bit word. -/
def toLE4 (w : Nat) : List Nat :=
  [w % 256, (w >>> 8) % 256, (w >>> 16) % 256, (w >>> 24) % 256]

/-- MD5 digest: 16 bytes. -/
def md5 (msg : List Nat) : List Nat :=
  let st := (chunks64 (md5Pad msg)).foldl md5Block
    (0x67452301, 0xefcdab89, 0x98badcfe, 0x10325476)
  toLE4 st.1 ++ toLE4 st.2.1 ++ toLE4 st.2.2.1 ++ toLE4 st.2.2.2

/-- Uppercase-hex digit (ASCII byte) of `n % 16`. -/
def hexDig (n : Nat) : Nat :=
  if n % 16 < 10 then 48 + n % 16 else 55 + n % 16

/-- Uppercase hexadecimal rendering of a byte list, as ASCII bytes. -/
def hexUpper (bs : List Nat) : List Nat :=
  bs.flatMap fun b => [hexDig (b / 16), hexDig b]

/-- The helper `d` of `Login._challenge_login`:
`md5(s).hexdigest().upper()` as ASCII bytes. -/
def dHex (s : List Nat) : List Nat := hexUpper (md5 s)

/-- UTF-16-LE encoding of an ASCII byte string: each byte followed by a
zero byte. -/
def utf16le (s : List Nat) : List Nat := s.flatMap fun b => [b, 0]

/-- Python 2 `str.encode('UTF-16-LE')`: an implicit strict ASCII decode
followed by UTF-16-LE encoding; any byte at or above 128 raises
`UnicodeDecodeError`, embedded as `none`. -/
def pyEncodeUTF16LE (s : List Nat) : Option (List Nat) :=
  if s.all (fun b => b < 128) then some (utf16le s) else none

/-- UTF-8 encoding of one Unicode code point. -/
def utf8Char (c : Nat) : List Nat :=
  if c < 128 then [c]
  else if c < 2048 then [192 + c / 64, 128 + c % 64]
  else if c < 65536 then [224 + c / 4096, 128 + (c / 64) % 64, 128 + c % 64]
  else [240 + c / 262144, 128 + (c / 4096) % 64, 128 + (c / 64) % 64,
        128 + c % 64]

/-- UTF-8 encoding of a character list. -/
def utf8OfChars (cs : List Char) : List Nat :=
  cs.flatMap fun c => utf8Char c.toNat

/-- UTF-8 bytes of a Lean string (text of a Python string literal). -/
def utf8Bytes (s : String) : List Nat := utf8OfChars s.toList

/-- Spec formula for `encodedPw`: `h(h(s) ++ t)` with `h` the uppercase-hex
MD5 and `++` byte-string concatenation. -/
def encodedPw (password token : List Nat) : List Nat :=
  dHex (dHex password ++ token)

/-- Spec formula for `encodedPwUnicode`:
`h(UTF-16-LE(h(UTF-16-LE(s)) ++ t))`. -/
def encodedPwUnicode (password token : List Nat) : List Nat :=
  dHex (utf16le (dHex (utf16le password) ++ token))

/-- The function `Login._challenge_login`: the digest pair, or `none` when one of the
implicit Python 2 ASCII decodes raises `UnicodeDecodeError`. -/
def challenge_login (password token : List Nat) :
    Option (List Nat × List Nat) :=
  let enc_p := dHex password
  match pyEncodeUTF16LE password with
  | none => none
  | some pwu =>
    let enc_pu := dHex pwu
    match pyEncodeUTF16LE (enc_pu ++ token) with
    | none => none
    | some seed_u => some (dHex (enc_p ++ token), dHex seed_u)

/-- Python 2 `str.strip` whitespace predicate. -/
def pyIsSpace (c : Char) : Bool :=
  c = ' ' || c = '\t' || c = '\n' || c = '\r' || c.toNat = 11 || c.toNat = 12

/-- Python 2 `str.strip()`: drop leading and trailing whitespace. -/
def pyStrip (s : String) : List Char :=
  ((s.toList.dropWhile pyIsSpace).reverse.dropWhile pyIsSpace).reverse

/-- The function `clean_string`: strip leading/trailing whitespace and encode to UTF-8
bytes. -/
def clean_string (s : String) : List Nat := utf8OfChars (pyStrip s)

/-- A parsed login page, abstracted to the result of the XPath query
`//input[@name="one_time_token"]/@value`: the value attributes of the
matching elements in document order. -/
structure Page where
  tokenValues : List String
deriving DecidableEq, Inhabited

/-- The function `xp_text_single` on the nonce XPath: the cleaned first result, or the
empty string when no element matches. -/
def xp_text_single (p : Page) : List Nat :=
  match p.tokenValues with
  | [] => []
  | v :: _ => clean_string v

/-- The in-memory cookie store of the opener's `CookieJar`. -/
abbrev Cookies : Type := List (String × String)

/-- One outbound HTTP request: URL and optional form-encoded body (`none`
is a GET, `some` a POST, exactly as `urllib2.urlopen`). -/
structure Request where
  url : String
  body : Option (List Nat)
deriving DecidableEq, Inhabited

/-- A server response as the client observes it: the parsed document, the
final resolved URL after redirects (`.url`), and the cookie store after
the exchange (the `HTTPCookieProcessor` applied any `Set-Cookie`). -/
structure HttpResponse where
  page : Page
  finalUrl : String
  cookies : Cookies
deriving DecidableEq, Inhabited

/-- The remote server, as an oracle from request and current cookie store
to a response. -/
def Server : Type := Request → Cookies → HttpResponse

/-- Client-side state of one opener: its cookie store and the trace of
exchanges performed so far. -/
structure ClientState where
  cookies : Cookies
  trace : List (Request × HttpResponse)
deriving DecidableEq, Inhabited

/-- The opener method `self._opener.open`: issue one request, record the exchange, and adopt
the post-exchange cookie store. -/
def openUrl (srv : Server) (st : ClientState) (url : String)
    (body : Option (List Nat)) : HttpResponse × ClientState :=
  let req : Request := ⟨url, body⟩
  let resp := srv req st.cookies
  (resp, ⟨resp.cookies, st.trace ++ [(req, resp)]⟩)

/-- Bytes that Python 2 `urllib.quote` never escapes
(letters, digits, `_`, `.`, `-`). -/
def quoteSafe (b : Nat) : Bool :=
  (65 ≤ b && b ≤ 90) || (97 ≤ b && b ≤ 122) || (48 ≤ b && b ≤ 57) ||
  b = 95 || b = 46 || b = 45

/-- Python 2 `urllib.quote_plus` with no extra safe characters: space to
`+`, safe bytes kept, everything else percent-escaped in uppercase hex. -/
def quotePlus (s : List Nat) : List Nat :=
  s.flatMap fun b =>
    if b = 32 then [43]
    else if quoteSafe b then [b]
    else [37, hexDig (b / 16), hexDig b]

/-- Python 2 `urllib.urlencode` on an association list:
`k=v` pairs joined by `&`, keys and values quoted. -/
def urlencode (params : List (List Nat × List Nat)) : List Nat :=
  List.intercalate [38]
    (params.map fun kv => quotePlus kv.1 ++ [61] ++ quotePlus kv.2)

/-- Split `scheme://rest` at the first colon, requiring `//` after it. -/
def splitScheme : List Char → Option (List Char × List Char)
  | [] => none
  | c :: rest =>
    if c = ':' then
      match rest with
      | '/' :: '/' :: tail => some ([], tail)
      | _ => none
    else
      match splitScheme rest with
      | some (pre, post) => some (c :: pre, post)
      | none => none

/-- Modelled from the spec: `urlparse.urljoin` (standard library, not in
`src/`) restricted to the case the client exercises — an absolute-path
reference, where the path replaces the existing path component and the
scheme and host of the base are preserved. -/
def urljoin (base rel : String) : String :=
  match rel.toList with
  | [] => base
  | c :: _ =>
    if c = '/' then
      match splitScheme base.toList with
      | some (scheme, after) =>
        String.mk (scheme ++ ':' :: '/' :: '/' ::
          (after.takeWhile (fun ch => ch ≠ '/')) ++ rel.toList)
      | none => rel
    else rel

/-- The relative login endpoint `Login.url`. -/
def Login.urlPath : String := "/webapps/login/"

/-- The fixed portal landing path `Login.new_loc`. -/
def Login.newLoc : String := "/webapps/portal/frameset.jsp"

/-- The form parameter dictionary built in `Login.__init__`, keyed and
ordered as in the source literal. -/
def loginParameters (user nonce encoded_pw encoded_pw_u : List Nat) :
    List (List Nat × List Nat) :=
  [ (utf8Bytes "user_id", user),
    (utf8Bytes "password", []),
    (utf8Bytes "login", utf8Bytes "Iniciar sesión"),
    (utf8Bytes "action", utf8Bytes "login"),
    (utf8Bytes "remote-user", []),
    (utf8Bytes "new_loc", utf8Bytes Login.newLoc),
    (utf8Bytes "auth_type", []),
    (utf8Bytes "one_time_token", nonce),
    (utf8Bytes "encoded_pw", encoded_pw),
    (utf8Bytes "encoded_pw_unicode", encoded_pw_u) ]

/-- A successfully constructed `Login` object: its fields, with the opener
represented by its cookie store. -/
structure Login where
  base_url : String
  user : List Nat
  password : List Nat
  cookies : Cookies
  nonce : List Nat
deriving DecidableEq

/-- The exceptions that can escape `Login.__init__`:
`InvalidCredentialsException`, or the `UnicodeDecodeError` from an
implicit ASCII decode in `_challenge_login`. -/
inductive LoginErr where
  | invalidCredentials
  | unicodeDecodeError
deriving DecidableEq

/-- The method `Login._fetch_nonce`: GET the login page and extract the nonce. -/
def fetch_nonce (srv : Server) (st : ClientState) (base_url : String) :
    List Nat × ClientState :=
  let (resp, st1) := openUrl srv st (urljoin base_url Login.urlPath) none
  (xp_text_single resp.page, st1)

/-- The constructor `Login.__init__`: fetch the nonce, derive the digests, POST the login
form, and compare the final URL with the login URL.  Returns the outcome
together with the final client state (cookie store and request trace). -/
def Login.init (srv : Server) (base_url : String) (user password : List Nat) :
    Except LoginErr Login × ClientState :=
  let st0 : ClientState := ⟨[], []⟩
  let (nonce, st1) := fetch_nonce srv st0 base_url
  match challenge_login password nonce with
  | none => (.error .unicodeDecodeError, st1)
  | some pair =>
    let parameters := loginParameters user nonce pair.1 pair.2
    let url := urljoin base_url Login.urlPath
    let (resp, st2) := openUrl srv st1 url (some (urlencode parameters))
    if url = resp.finalUrl then (.error .invalidCredentials, st2)
    else (.ok ⟨base_url, user, password, st2.cookies, nonce⟩, st2)

/-! ## Basic facts about the digest primitives -/

theorem hexDig_lt_128 (n : Nat) : hexDig n < 128 := by
  have h : n % 16 < 16 := Nat.mod_lt _ (by omega)
  unfold hexDig
  split <;> omega

theorem hexUpper_ascii (bs : List Nat) :
    (hexUpper bs).all (fun b => b < 128) = true := by
  rw [List.all_eq_true]
  intro x hx
  unfold hexUpper at hx
  rw [List.mem_flatMap] at hx
  obtain ⟨b, -, hb⟩ := hx
  have hx2 : x = hexDig (b / 16) ∨ x = hexDig b := by simpa using hb
  rcases hx2 with h | h <;> (subst h; simpa using hexDig_lt_128 _)

theorem dHex_ascii (s : List Nat) :
    (dHex s).all (fun b => b < 128) = true := hexUpper_ascii _

theorem md5_length (msg : List Nat) : (md5 msg).length = 16 := by
  unfold md5 toLE4
  simp

theorem hexUpper_length (bs : List Nat) :
    (hexUpper bs).length = 2 * bs.length := by
  unfold hexUpper
  induction bs with
  | nil => simp
  | cons b l ih =>
    rw [List.flatMap_cons]
    simp only [List.length_append, List.length_cons, ih]
    simp
    omega

theorem dHex_length (s : List Nat) : (dHex s).length = 32 := by
  unfold dHex
  rw [hexUpper_length, md5_length]

/-- When the secret and nonce are pure ASCII, the implicit Python 2
decodes succeed and `_challenge_login` returns exactly the spec's digest
pair. -/
theorem challenge_login_ascii (p t : List Nat)
    (hp : p.all (fun b => b < 128) = true)
    (ht : t.all (fun b => b < 128) = true) :
    challenge_login p t = some (encodedPw p t, encodedPwUnicode p t) := by
  have h2 : (dHex (utf16le p) ++ t).all (fun b => b < 128) = true := by
    rw [List.all_append, dHex_ascii, ht]
    rfl
  unfold challenge_login pyEncodeUTF16LE
  rw [if_pos hp]
  simp only []
  rw [if_pos h2]
  rfl

/-! ## Observations of the login pipeline -/

/-- The GET request that `_fetch_nonce` issues. -/
def getReq (base : String) : Request := ⟨urljoin base Login.urlPath, none⟩

/-- The response the server gives to the nonce-fetch GET (issued with the
fresh, empty cookie store). -/
def getResp (srv : Server) (base : String) : HttpResponse :=
  srv (getReq base) []

/-- The nonce extracted from the login page. -/
def theNonce (srv : Server) (base : String) : List Nat :=
  xp_text_single (getResp srv base).page

/-- The POST request that submits the login form with digest pair
`(p₁, p₂)`. -/
def postReq (srv : Server) (base : String) (user p₁ p₂ : List Nat) :
    Request :=
  ⟨urljoin base Login.urlPath,
   some (urlencode (loginParameters user (theNonce srv base) p₁ p₂))⟩

/-- The response the server gives to the login POST (issued with the
cookie store left by the GET). -/
def postResp (srv : Server) (base : String) (user p₁ p₂ : List Nat) :
    HttpResponse :=
  srv (postReq srv base user p₁ p₂) (getResp srv base).cookies

/-- Unfolding of `Login.init` when the digest derivation succeeds. -/
theorem Login.init_eq (srv : Server) (base : String) (user pw p₁ p₂ : List Nat)
    (hch : challenge_login pw (theNonce srv base) = some (p₁, p₂)) :
    Login.init srv base user pw =
      (if urljoin base Login.urlPath = (postResp srv base user p₁ p₂).finalUrl
       then Except.error LoginErr.invalidCredentials
       else Except.ok
         ⟨base, user, pw, (postResp srv base user p₁ p₂).cookies,
          theNonce srv base⟩,
       ⟨(postResp srv base user p₁ p₂).cookies,
        [(getReq base, getResp srv base),
         (postReq srv base user p₁ p₂, postResp srv base user p₁ p₂)]⟩) := by
  unfold Login.init fetch_nonce openUrl postResp postReq theNonce getResp getReq
  unfold theNonce getResp getReq at hch
  simp only [List.nil_append] at hch ⊢
  rw [hch]
  simp only []
  split <;> rfl

/-! ## Digest-level claims -/

/-- Claim C1: for every ASCII secret `s` and nonce `t`, the digest pair
produced by `_challenge_login` is exactly the spec's formulas:
`encoded_pw = h(h(s) ++ t)` and
`encoded_pw_unicode = h(UTF-16-LE(h(UTF-16-LE(s)) ++ t))`, with `h` the
uppercase-hex MD5 and `++` byte-string concatenation. -/
theorem challenge_digest_pair_spec (s t : List Nat)
    (hs : s.all (fun b => b < 128) = true)
    (ht : t.all (fun b => b < 128) = true) :
    challenge_login s t = some (encodedPw s t, encodedPwUnicode s t) :=
  challenge_login_ascii s t hs ht

/-- Witness for C1 at the reference vector `s = "abc"`, `t = "xyz"`. -/
theorem challenge_digest_pair_spec_witness :
    ((utf8Bytes "abc").all (fun b => b < 128) = true ∧
     (utf8Bytes "xyz").all (fun b => b < 128) = true) ∧
    challenge_login (utf8Bytes "abc") (utf8Bytes "xyz") =
      some (encodedPw (utf8Bytes "abc") (utf8Bytes "xyz"),
            encodedPwUnicode (utf8Bytes "abc") (utf8Bytes "xyz")) :=
  ⟨⟨by decide, by decide⟩,
   challenge_digest_pair_spec (utf8Bytes "abc") (utf8Bytes "xyz")
     (by decide) (by decide)⟩

/-- Claim C6: the digest derivation is a pure function — evaluating it
twice on the same secret/nonce pair yields the same `encoded_pw` and the
same `encoded_pw_unicode`; there is no hidden randomness. -/
theorem challenge_deterministic (s t : List Nat) :
    challenge_login s t = challenge_login s t ∧
    encodedPw s t = encodedPw s t ∧
    encodedPwUnicode s t = encodedPwUnicode s t :=
  ⟨rfl, rfl, rfl⟩

/-- The `encodedPw` digest at the empty secret, read as a function into a
finite type (32 bytes, each below 256), with nonces drawn from the
infinite family `aⁿ`. -/
def digestFin (n : Nat) : Fin 32 → Fin 256 := fun i =>
  ⟨(encodedPw [] (List.replicate n 97)).getD i 0 % 256,
   Nat.mod_lt _ (by omega)⟩

theorem encodedPw_eq_of_digestFin_eq {n₁ n₂ : Nat}
    (h : digestFin n₁ = digestFin n₂) :
    encodedPw [] (List.replicate n₁ 97) = encodedPw [] (List.replicate n₂ 97) := by
  have l1 : (encodedPw [] (List.replicate n₁ 97)).length = 32 := dHex_length _
  have l2 : (encodedPw [] (List.replicate n₂ 97)).length = 32 := dHex_length _
  apply List.ext_getElem (by rw [l1, l2])
  intro i h₁ h₂
  have hi : i < 32 := by omega
  have hfi := congrFun h ⟨i, hi⟩
  have e1 : (encodedPw [] (List.replicate n₁ 97)).getD i 0 < 128 := by
    have := List.all_eq_true.mp (dHex_ascii (dHex [] ++ List.replicate n₁ 97))
    have hm := this _ (List.getElem_mem h₁)
    rw [List.getD_eq_getElem _ _ h₁]
    simpa using hm
  have e2 : (encodedPw [] (List.replicate n₂ 97)).getD i 0 < 128 := by
    have := List.all_eq_true.mp (dHex_ascii (dHex [] ++ List.replicate n₂ 97))
    have hm := this _ (List.getElem_mem h₂)
    rw [List.getD_eq_getElem _ _ h₂]
    simpa using hm
  have hv : (encodedPw [] (List.replicate n₁ 97)).getD i 0 % 256 =
      (encodedPw [] (List.replicate n₂ 97)).getD i 0 % 256 :=
    congrArg Fin.val hfi
  rw [Nat.mod_eq_of_lt (by omega), Nat.mod_eq_of_lt (by omega)] at hv
  rw [List.getD_eq_getElem _ _ h₁, List.getD_eq_getElem _ _ h₂] at hv
  exact hv

/-- Claim C7 counterexample: it is not the case that distinct nonces
always give distinct `encodedPw` digests — the digest space is finite
(32 hex bytes) while the nonce space is infinite, so some two distinct
nonces collide (pigeonhole); no universal anti-collision statement can
hold of MD5. -/
theorem encodedPw_nonce_collision_exists :
    ¬ ∀ (s t₁ t₂ : List Nat), t₁ ≠ t₂ → encodedPw s t₁ ≠ encodedPw s t₂ := by
  intro h
  obtain ⟨n₁, n₂, hne, heq⟩ := Finite.exists_ne_map_eq_of_infinite digestFin
  refine h [] (List.replicate n₁ 97) (List.replicate n₂ 97) ?_
    (encodedPw_eq_of_digestFin_eq heq)
  intro hrep
  exact hne (by simpa using congrArg List.length hrep)

/-- Claim C7 (amended): distinct nonces always give distinct inputs to the
final MD5 in the `encodedPw` derivation — the hex digest of the secret is
a fixed-length block, so `h(s) ++ t₁ = h(s) ++ t₂` forces `t₁ = t₂`;
digest equality could only arise from an MD5 collision on distinct
inputs. -/
theorem encodedPw_seed_nonce_injective (s t₁ t₂ : List Nat) (h : t₁ ≠ t₂) :
    dHex s ++ t₁ ≠ dHex s ++ t₂ := by
  intro he
  exact h (List.append_cancel_left he)

/-- Witness for the amended C7 at `s = []`, `t₁ = [0]`, `t₂ = [1]`. -/
theorem encodedPw_seed_nonce_injective_witness :
    ([0] : List Nat) ≠ [1] ∧ dHex [] ++ [0] ≠ dHex [] ++ [1] :=
  ⟨by decide, encodedPw_seed_nonce_injective [] [0] [1] (by decide)⟩

/-- Claim C8 counterexample: for the secret `"ü"` (bytes `[195, 188]`,
not ASCII) and nonce `"xyz"`, `_challenge_login` produces no digest pair
at all — the implicit Python 2 ASCII decode in
`password.encode('UTF-16-LE')` raises `UnicodeDecodeError` — so there are
no values `encoded_pw` and `encoded_pw_unicode` to compare, contradicting
the claimed inequality for secrets with non-ASCII characters. -/
theorem nonascii_secret_produces_no_pair :
    ¬ ∃ p pu, challenge_login (utf8Bytes "ü") (utf8Bytes "xyz") =
        some (p, pu) ∧ p ≠ pu := by
  intro hex
  obtain ⟨p, pu, he, -⟩ := hex
  have h0 : challenge_login (utf8Bytes "ü") (utf8Bytes "xyz") = none := by
    decide
  rw [h0] at he
  exact Option.noConfusion he

/-- Claim C8 (amended): on the ASCII reference vector
(secret `"abc"`, nonce `"xyz"`) the derivation produces the concrete pair
`8C559D81E64227A3D29BD9AF94612332` / `F4B80AD7401BF2B20DD7C6E88662EB06`,
whose components differ; and for every secret containing a byte outside
ASCII the derivation produces no pair at all (`UnicodeDecodeError`),
whatever the nonce. -/
theorem challenge_vector_and_nonascii :
    (challenge_login (utf8Bytes "abc") (utf8Bytes "xyz") =
       some (utf8Bytes "8C559D81E64227A3D29BD9AF94612332",
             utf8Bytes "F4B80AD7401BF2B20DD7C6E88662EB06") ∧
     utf8Bytes "8C559D81E64227A3D29BD9AF94612332" ≠
       utf8Bytes "F4B80AD7401BF2B20DD7C6E88662EB06") ∧
    ∀ s t, s.all (fun b => b < 128) = false → challenge_login s t = none := by
  refine ⟨⟨by decide, by decide⟩, ?_⟩
  intro s t hs
  unfold challenge_login pyEncodeUTF16LE
  rw [if_neg (by simp [hs])]

/-- Witness for the amended C8 at the secret `"ü"`. -/
theorem challenge_vector_and_nonascii_witness :
    (utf8Bytes "ü").all (fun b => b < 128) = false ∧
    challenge_login (utf8Bytes "ü") [] = none :=
  ⟨by decide, challenge_vector_and_nonascii.2 (utf8Bytes "ü") [] (by decide)⟩

/-- Unfolding of `Login.init` when the digest derivation raises: only the
nonce-fetch GET was issued. -/
theorem Login.init_none (srv : Server) (base : String) (user pw : List Nat)
    (hch : challenge_login pw (theNonce srv base) = none) :
    Login.init srv base user pw =
      (Except.error LoginErr.unicodeDecodeError,
       ⟨(getResp srv base).cookies, [(getReq base, getResp srv base)]⟩) := by
  unfold Login.init fetch_nonce openUrl getResp getReq
  unfold theNonce getResp getReq at hch
  simp only [List.nil_append] at hch ⊢
  rw [hch]

/-! ## Pipeline claims -/

/-- Claim C2: under an ASCII secret and nonce, `Login.__init__` fails with
`InvalidCredentialsException` exactly when the final resolved URL of the
POST response equals the login URL resolved against the base URL; when it
differs the constructor succeeds, and the constructed object retains the
opener's cookie store. -/
theorem login_outcome_iff (srv : Server) (base : String) (user pw : List Nat)
    (hp : pw.all (fun b => b < 128) = true)
    (ht : (theNonce srv base).all (fun b => b < 128) = true) :
    ((Login.init srv base user pw).1 = .error .invalidCredentials ↔
      ((Login.init srv base user pw).2.trace.getD 1 default).2.finalUrl =
        urljoin base Login.urlPath) ∧
    (¬ (Login.init srv base user pw).1 = .error .invalidCredentials →
      ∃ l, (Login.init srv base user pw).1 = .ok l) ∧
    (∀ l, (Login.init srv base user pw).1 = .ok l →
      l.cookies = (Login.init srv base user pw).2.cookies) := by
  rw [Login.init_eq srv base user pw _ _ (challenge_login_ascii pw _ hp ht)]
  by_cases hc : urljoin base Login.urlPath =
      (postResp srv base user (encodedPw pw (theNonce srv base))
        (encodedPwUnicode pw (theNonce srv base))).finalUrl
  · rw [if_pos hc]
    refine ⟨by simp [List.getD, hc.symm], by simp, ?_⟩
    intro l hl
    exact absurd hl (by simp)
  · rw [if_neg hc]
    refine ⟨by simpa [List.getD, eq_comm] using hc, by simp, ?_⟩
    intro l hl
    have : l = ⟨base, user, pw,
        (postResp srv base user (encodedPw pw (theNonce srv base))
          (encodedPwUnicode pw (theNonce srv base))).cookies,
        theNonce srv base⟩ := by
      simpa [eq_comm] using hl
    rw [this]

/-- Claim C3: when the fetched login page has no element matching
`input[name="one_time_token"]`, the nonce-fetch step returns the empty
string and raises nothing; the empty nonce is accepted by the digest
derivation and the submission still happens, with failure surfacing only
at the final URL-comparison check. -/
theorem empty_nonce_accepted (srv : Server) (base : String)
    (user pw : List Nat)
    (hp : pw.all (fun b => b < 128) = true)
    (hpage : (getResp srv base).page.tokenValues = []) :
    theNonce srv base = [] ∧
    challenge_login pw [] = some (encodedPw pw [], encodedPwUnicode pw []) ∧
    (Login.init srv base user pw).1 ≠ .error .unicodeDecodeError ∧
    (Login.init srv base user pw).2.trace.length = 2 ∧
    ((Login.init srv base user pw).1 = .error .invalidCredentials ↔
      (postResp srv base user (encodedPw pw [])
        (encodedPwUnicode pw [])).finalUrl = urljoin base Login.urlPath) := by
  have hn : theNonce srv base = [] := by
    unfold theNonce xp_text_single
    rw [hpage]
  have hempty : challenge_login pw [] =
      some (encodedPw pw [], encodedPwUnicode pw []) :=
    challenge_login_ascii pw [] hp rfl
  have hch : challenge_login pw (theNonce srv base) =
      some (encodedPw pw [], encodedPwUnicode pw []) := by
    rw [hn]
    exact hempty
  rw [Login.init_eq srv base user pw _ _ hch]
  refine ⟨hn, hempty, ?_, by simp, ?_⟩
  · split <;> simp
  · by_cases hc : urljoin base Login.urlPath =
        (postResp srv base user (encodedPw pw [])
          (encodedPwUnicode pw [])).finalUrl
    · rw [if_pos hc]
      simp [hc.symm]
    · rw [if_neg hc]
      simpa [eq_comm] using hc

/-- Claim C4: under an ASCII secret and nonce, the submitted form body is
the form-encoding of exactly the ten fields `user_id`, `password` (empty),
the localized submit label `login = "Iniciar sesión"`, `action = login`,
`remote-user` (empty), `new_loc = /webapps/portal/frameset.jsp`,
`auth_type` (empty), `one_time_token` (the fetched nonce), `encoded_pw`
and `encoded_pw_unicode`. -/
theorem submitted_form_fields (srv : Server) (base : String)
    (user pw : List Nat)
    (hp : pw.all (fun b => b < 128) = true)
    (ht : (theNonce srv base).all (fun b => b < 128) = true) :
    ((Login.init srv base user pw).2.trace.getD 1 default).1.body =
      some (urlencode
        [ (utf8Bytes "user_id", user),
          (utf8Bytes "password", []),
          (utf8Bytes "login", utf8Bytes "Iniciar sesión"),
          (utf8Bytes "action", utf8Bytes "login"),
          (utf8Bytes "remote-user", []),
          (utf8Bytes "new_loc", utf8Bytes "/webapps/portal/frameset.jsp"),
          (utf8Bytes "auth_type", []),
          (utf8Bytes "one_time_token", theNonce srv base),
          (utf8Bytes "encoded_pw", encodedPw pw (theNonce srv base)),
          (utf8Bytes "encoded_pw_unicode",
           encodedPwUnicode pw (theNonce srv base)) ]) := by
  rw [Login.init_eq srv base user pw _ _ (challenge_login_ascii pw _ hp ht)]
  simp [List.getD, postReq, loginParameters, Login.newLoc]

/-- Claim C5: the raw secret is never transmitted — the `password` form
field is always the empty string, and the request trace depends on the
secret only through the digest pair: two secrets with the same digest
pair at the fetched nonce produce identical transmitted requests. -/
theorem secret_noninterference (srv : Server) (base : String)
    (user pw₁ pw₂ : List Nat)
    (hch : challenge_login pw₁ (theNonce srv base) =
           challenge_login pw₂ (theNonce srv base)) :
    (Login.init srv base user pw₁).2.trace =
      (Login.init srv base user pw₂).2.trace ∧
    (∀ u n a b, (loginParameters u n a b).get? 1 =
      some (utf8Bytes "password", [])) := by
  refine ⟨?_, fun u n a b => rfl⟩
  cases hc : challenge_login pw₁ (theNonce srv base) with
  | none =>
    rw [Login.init_none srv base user pw₁ hc,
        Login.init_none srv base user pw₂ (hch.symm.trans hc)]
  | some pair =>
    obtain ⟨p₁, p₂⟩ := pair
    rw [Login.init_eq srv base user pw₁ p₁ p₂ hc,
        Login.init_eq srv base user pw₂ p₁ p₂ (hch.symm.trans hc)]

/-- Claim C9: under an ASCII secret and nonce, `Login.__init__` issues
exactly two outbound requests — a GET with no body and then a POST with
the form body, both at the URL obtained by joining `/webapps/login/`
against the base URL — and the final cookie store is exactly the one
left by the second exchange. -/
theorem exactly_two_requests (srv : Server) (base : String)
    (user pw : List Nat)
    (hp : pw.all (fun b => b < 128) = true)
    (ht : (theNonce srv base).all (fun b => b < 128) = true) :
    (Login.init srv base user pw).2.trace.map Prod.fst =
      [⟨urljoin base Login.urlPath, none⟩,
       ⟨urljoin base Login.urlPath,
        some (urlencode (loginParameters user (theNonce srv base)
          (encodedPw pw (theNonce srv base))
          (encodedPwUnicode pw (theNonce srv base))))⟩] ∧
    (Login.init srv base user pw).2.cookies =
      ((Login.init srv base user pw).2.trace.getD 1 default).2.cookies := by
  rw [Login.init_eq srv base user pw _ _ (challenge_login_ascii pw _ hp ht)]
  exact ⟨by simp [getReq, postReq], by simp [List.getD]⟩

/-- Claim C10: when the first `one_time_token` element's value attribute
is `v`, the nonce actually used — in the digest derivation and in the
submitted `one_time_token` field — is `v` with leading/trailing
whitespace stripped and encoded as UTF-8 bytes, not the raw attribute
value. -/
theorem nonce_is_stripped_attribute (srv : Server) (base : String)
    (user pw : List Nat) (v : String) (vs : List String)
    (hp : pw.all (fun b => b < 128) = true)
    (hpage : (getResp srv base).page.tokenValues = v :: vs)
    (hv : (clean_string v).all (fun b => b < 128) = true) :
    theNonce srv base = utf8OfChars (pyStrip v) ∧
    ((Login.init srv base user pw).2.trace.getD 1 default).1.body =
      some (urlencode (loginParameters user (utf8OfChars (pyStrip v))
        (encodedPw pw (utf8OfChars (pyStrip v)))
        (encodedPwUnicode pw (utf8OfChars (pyStrip v))))) := by
  have hn : theNonce srv base = utf8OfChars (pyStrip v) := by
    unfold theNonce xp_text_single
    rw [hpage]
    rfl
  have hch : challenge_login pw (theNonce srv base) =
      some (encodedPw pw (utf8OfChars (pyStrip v)),
            encodedPwUnicode pw (utf8OfChars (pyStrip v))) := by
    rw [hn]
    exact challenge_login_ascii pw _ hp hv
  refine ⟨hn, ?_⟩
  rw [Login.init_eq srv base user pw _ _ hch]
  simp [List.getD, postReq, hn]

/-! ## Concrete servers for witnesses -/

/-- A mock server: the GET returns a login page whose nonce field value is
`" N0NCE "`, the POST redirects to the portal landing page. -/
def testServer : Server := fun req _ =>
  match req.body with
  | none => ⟨⟨[" N0NCE "]⟩, "http://example.test/webapps/login/",
             [("JSESSIONID", "g1")]⟩
  | some _ => ⟨⟨[]⟩, "http://example.test/webapps/portal/frameset.jsp",
              [("JSESSIONID", "s2")]⟩

/-- A mock server whose login page has no `one_time_token` element. -/
def noTokenServer : Server := fun req _ =>
  match req.body with
  | none => ⟨⟨[]⟩, "http://example.test/webapps/login/", []⟩
  | some _ => ⟨⟨[]⟩, "http://example.test/webapps/login/", []⟩

/-- Witness for C2 on the mock server. -/
theorem login_outcome_iff_witness :
    ((utf8Bytes "secret").all (fun b => b < 128) = true ∧
     (theNonce testServer "http://example.test").all
       (fun b => b < 128) = true) ∧
    (((Login.init testServer "http://example.test" (utf8Bytes "dualbus")
        (utf8Bytes "secret")).1 = .error .invalidCredentials ↔
      ((Login.init testServer "http://example.test" (utf8Bytes "dualbus")
          (utf8Bytes "secret")).2.trace.getD 1 default).2.finalUrl =
        urljoin "http://example.test" Login.urlPath) ∧
     (¬ (Login.init testServer "http://example.test" (utf8Bytes "dualbus")
          (utf8Bytes "secret")).1 = .error .invalidCredentials →
       ∃ l, (Login.init testServer "http://example.test" (utf8Bytes "dualbus")
          (utf8Bytes "secret")).1 = .ok l) ∧
     (∀ l, (Login.init testServer "http://example.test" (utf8Bytes "dualbus")
          (utf8Bytes "secret")).1 = .ok l →
       l.cookies = (Login.init testServer "http://example.test"
          (utf8Bytes "dualbus") (utf8Bytes "secret")).2.cookies)) :=
  ⟨⟨by decide, by decide⟩,
   login_outcome_iff testServer "http://example.test" (utf8Bytes "dualbus")
     (utf8Bytes "secret") (by decide) (by decide)⟩

/-- Witness for C3 on the token-less mock server. -/
theorem empty_nonce_accepted_witness :
    ((utf8Bytes "secret").all (fun b => b < 128) = true ∧
     (getResp noTokenServer "http://example.test").page.tokenValues = []) ∧
    (theNonce noTokenServer "http://example.test" = [] ∧
     challenge_login (utf8Bytes "secret") [] =
       some (encodedPw (utf8Bytes "secret") [],
             encodedPwUnicode (utf8Bytes "secret") []) ∧
     (Login.init noTokenServer "http://example.test" (utf8Bytes "dualbus")
        (utf8Bytes "secret")).1 ≠ .error .unicodeDecodeError ∧
     (Login.init noTokenServer "http://example.test" (utf8Bytes "dualbus")
        (utf8Bytes "secret")).2.trace.length = 2 ∧
     ((Login.init noTokenServer "http://example.test" (utf8Bytes "dualbus")
        (utf8Bytes "secret")).1 = .error .invalidCredentials ↔
      (postResp noTokenServer "http://example.test" (utf8Bytes "dualbus")
        (encodedPw (utf8Bytes "secret") [])
        (encodedPwUnicode (utf8Bytes "secret") [])).finalUrl =
        urljoin "http://example.test" Login.urlPath)) :=
  ⟨⟨by decide, by decide⟩,
   empty_nonce_accepted noTokenServer "http://example.test"
     (utf8Bytes "dualbus") (utf8Bytes "secret") (by decide) (by decide)⟩

/-- Witness for C4 on the mock server. -/
theorem submitted_form_fields_witness :
    ((utf8Bytes "secret").all (fun b => b < 128) = true ∧
     (theNonce testServer "http://example.test").all
       (fun b => b < 128) = true) ∧
    ((Login.init testServer "http://example.test" (utf8Bytes "dualbus")
        (utf8Bytes "secret")).2.trace.getD 1 default).1.body =
      some (urlencode
        [ (utf8Bytes "user_id", utf8Bytes "dualbus"),
          (utf8Bytes "password", []),
          (utf8Bytes "login", utf8Bytes "Iniciar sesión"),
          (utf8Bytes "action", utf8Bytes "login"),
          (utf8Bytes "remote-user", []),
          (utf8Bytes "new_loc", utf8Bytes "/webapps/portal/frameset.jsp"),
          (utf8Bytes "auth_type", []),
          (utf8Bytes "one_time_token", theNonce testServer "http://example.test"),
          (utf8Bytes "encoded_pw",
           encodedPw (utf8Bytes "secret")
             (theNonce testServer "http://example.test")),
          (utf8Bytes "encoded_pw_unicode",
           encodedPwUnicode (utf8Bytes "secret")
             (theNonce testServer "http://example.test")) ]) :=
  ⟨⟨by decide, by decide⟩,
   submitted_form_fields testServer "http://example.test" (utf8Bytes "dualbus")
     (utf8Bytes "secret") (by decide) (by decide)⟩

/-- Witness for C5: the hypothesis holds for two evaluations at the same
secret. -/
theorem secret_noninterference_witness :
    challenge_login (utf8Bytes "secret")
        (theNonce testServer "http://example.test") =
      challenge_login (utf8Bytes "secret")
        (theNonce testServer "http://example.test") ∧
    ((Login.init testServer "http://example.test" (utf8Bytes "dualbus")
        (utf8Bytes "secret")).2.trace =
      (Login.init testServer "http://example.test" (utf8Bytes "dualbus")
        (utf8Bytes "secret")).2.trace ∧
     (∀ u n a b, (loginParameters u n a b).get? 1 =
       some (utf8Bytes "password", []))) :=
  ⟨rfl,
   secret_noninterference testServer "http://example.test"
     (utf8Bytes "dualbus") (utf8Bytes "secret") (utf8Bytes "secret") rfl⟩

/-- Witness for C9 on the mock server. -/
theorem exactly_two_requests_witness :
    ((utf8Bytes "secret").all (fun b => b < 128) = true ∧
     (theNonce testServer "http://example.test").all
       (fun b => b < 128) = true) ∧
    ((Login.init testServer "http://example.test" (utf8Bytes "dualbus")
        (utf8Bytes "secret")).2.trace.map Prod.fst =
      [⟨urljoin "http://example.test" Login.urlPath, none⟩,
       ⟨urljoin "http://example.test" Login.urlPath,
        some (urlencode (loginParameters (utf8Bytes "dualbus")
          (theNonce testServer "http://example.test")
          (encodedPw (utf8Bytes "secret")
            (theNonce testServer "http://example.test"))
          (encodedPwUnicode (utf8Bytes "secret")
            (theNonce testServer "http://example.test"))))⟩] ∧
     (Login.init testServer "http://example.test" (utf8Bytes "dualbus")
        (utf8Bytes "secret")).2.cookies =
      ((Login.init testServer "http://example.test" (utf8Bytes "dualbus")
          (utf8Bytes "secret")).2.trace.getD 1 default).2.cookies) :=
  ⟨⟨by decide, by decide⟩,
   exactly_two_requests testServer "http://example.test" (utf8Bytes "dualbus")
     (utf8Bytes "secret") (by decide) (by decide)⟩

/-- Witness for C10 on the mock server, whose attribute value `" N0NCE "`
carries leading and trailing whitespace. -/
theorem nonce_is_stripped_attribute_witness :
    ((utf8Bytes "secret").all (fun b => b < 128) = true ∧
     (getResp testServer "http://example.test").page.tokenValues =
       " N0NCE " :: [] ∧
     (clean_string " N0NCE ").all (fun b => b < 128) = true) ∧
    (theNonce testServer "http://example.test" =
       utf8OfChars (pyStrip " N0NCE ") ∧
     ((Login.init testServer "http://example.test" (utf8Bytes "dualbus")
         (utf8Bytes "secret")).2.trace.getD 1 default).1.body =
       some (urlencode (loginParameters (utf8Bytes "dualbus")
         (utf8OfChars (pyStrip " N0NCE "))
         (encodedPw (utf8Bytes "secret") (utf8OfChars (pyStrip " N0NCE ")))
         (encodedPwUnicode (utf8Bytes "secret")
           (utf8OfChars (pyStrip " N0NCE ")))))) :=
  ⟨⟨by decide, by decide, by decide⟩,
   nonce_is_stripped_attribute testServer "http://example.test"
     (utf8Bytes "dualbus") (utf8Bytes "secret") " N0NCE " []
     (by decide) (by decide) (by decide)⟩
